import Mathlib

/-!
Shallow embedding of `src/insert_to_mangodb.py`, an AWS Lambda handler that
(1) serves file downloads from S3 via API Gateway query parameters, and
(2) reconciles S3 change-notification batches against a MongoDB metadata
collection keyed by (bucket, file_path).

The MongoDB collection is modelled as a list of records (Mongo imposes no
key uniqueness; `find_one` returns the first match, `delete_one` removes the
first match, `find_one_and_update` updates the first match, `insert_one`
appends).  The S3 object store is a function from (bucket, key) to an
optional object; a `none` result models the `ClientError` raised by
`head_object`/`get_object` on a missing key, which the handler only catches
at the top-level `except` returning a 500 response.  Alongside the response
and the final collection, the embedding returns a log of the S3 calls and
collection mutations performed, so that "no store mutation" and "no
fingerprint lookup" properties can be stated exactly.
-/

namespace InsertToMongo

/-- One MongoDB document of the `files` collection (the fields written by
`collection.insert_one` at lines 83-88 of the source). -/
structure FileRecord where
  bucket : String
  file_path : String
  etag : String
  timestamp : String
deriving DecidableEq, Repr

/-- The `files` collection, as the ordered list of its documents. -/
abbrev Collection := List FileRecord

/-- The query filter `{"bucket": b, "file_path": p}` used by every
collection operation in the source. -/
def keyMatch (b p : String) (r : FileRecord) : Bool :=
  r.bucket == b && r.file_path == p

/-- `collection.find_one({"bucket": b, "file_path": p})`: first matching
document, if any. -/
def find_one (coll : Collection) (b p : String) : Option FileRecord :=
  coll.find? (keyMatch b p)

/-- `collection.insert_one(r)`: appends a document. -/
def insert_one (coll : Collection) (r : FileRecord) : Collection :=
  coll ++ [r]

/-- `collection.delete_one({"bucket": b, "file_path": p})`: removes the
first matching document; a no-op when none matches. -/
def delete_one (coll : Collection) (b p : String) : Collection :=
  match coll with
  | [] => []
  | r :: rest => if keyMatch b p r then rest else r :: delete_one rest b p

/-- `collection.find_one_and_update(filter, {"$set": {"etag": e,
"timestamp": t}})`: sets the two fields on the first matching document. -/
def find_one_and_update (coll : Collection) (b p e t : String) : Collection :=
  match coll with
  | [] => []
  | r :: rest =>
      if keyMatch b p r then { r with etag := e, timestamp := t } :: rest
      else r :: find_one_and_update rest b p e t

/-- Number of documents matching the (bucket, file_path) filter. -/
def countKey (coll : Collection) (b p : String) : Nat :=
  coll.countP (keyMatch b p)

/-- An S3 object as seen through `get_object` / `head_object`: its bytes,
its `ContentType`, and its `ETag` (which boto3 reports wrapped in quote
characters). -/
structure S3Object where
  content : List Nat
  contentType : String
  etag : String
deriving DecidableEq, Repr

/-- The state of the S3 object store: `none` means the key is absent, in
which case `head_object`/`get_object` raise a `ClientError`. -/
def S3State := String → String → Option S3Object

/-- Python `s.strip(c)`: removes every leading and trailing occurrence of
the character `c`. -/
def stripChar (c : Char) (s : String) : String :=
  String.mk (((s.data.dropWhile (· == c)).reverse.dropWhile (· == c)).reverse)

/-- `s3_response['ETag'].strip('"')` (line 69 of the source). -/
def stripQuotes (s : String) : String :=
  stripChar '"' s

/-- Python `'ObjectRemoved' in s3_event` (line 113): substring test. -/
def isDeleteEvent (s : String) : Bool :=
  decide (List.IsInfix "ObjectRemoved".data s.data)

/-- The external calls and collection mutations the handler can perform,
logged in order. -/
inductive Op where
  | headObject : String → String → Op
  | getObject : String → String → Op
  | insertOne : Op
  | updateOne : Op
  | deleteOne : Op
deriving DecidableEq, Repr

/-- One record of an S3 notification batch: `eventName`,
`s3.bucket.name`, `s3.object.key`, `eventTime`. -/
structure S3EventRecord where
  eventName : String
  bucket : String
  key : String
  eventTime : String
deriving DecidableEq, Repr

/-- The body of the per-record loop (lines 63-115), after the
`head_object` call has succeeded or failed.  Returns `none` when
`head_object` raises (object absent from S3); otherwise the new collection
together with the collection mutations performed.  Mirrors the source
exactly: the fingerprint is fetched before the event kind is examined, the
insert/compare/update logic runs for every record, and the
`'ObjectRemoved'` check comes last. -/
def applyRecord (s3 : S3State) (coll : Collection) (r : S3EventRecord) :
    Option (Collection × List Op) :=
  match s3 r.bucket r.key with
  | none => none
  | some obj =>
      let event_etag := stripQuotes obj.etag
      let step :=
        match find_one coll r.bucket r.key with
        | none =>
            (insert_one coll
              { bucket := r.bucket, file_path := r.key,
                etag := event_etag, timestamp := r.eventTime },
             [Op.insertOne])
        | some file_record =>
            if file_record.etag == event_etag then (coll, [])
            else
              (find_one_and_update coll r.bucket r.key event_etag r.eventTime,
               [Op.updateOne])
      if isDeleteEvent r.eventName then
        some (delete_one step.1 r.bucket r.key, step.2 ++ [Op.deleteOne])
      else
        some (step.1, step.2)

/-- The HTTP-style response dictionary returned by the handler. -/
structure LambdaResult where
  statusCode : Nat
  headers : List (String × String) := []
  body : String
  isBase64Encoded : Bool := false
deriving DecidableEq, Repr

/-- `json.dumps` of a plain string (quotation added; the strings involved
need no escaping). -/
def jsonStr (s : String) : String :=
  "\"" ++ s ++ "\""

/-- The 500 response built by the top-level `except` clause
(lines 128-133). -/
def err500 (msg : String) : LambdaResult :=
  { statusCode := 500, body := jsonStr ("Error processing event: " ++ msg) }

/-- Message of the `ClientError` raised by `head_object` on a missing
key. -/
def headNotFoundMsg : String :=
  "An error occurred (404) when calling the HeadObject operation: Not Found"

/-- Message of the `ClientError` raised by `get_object` on a missing
key. -/
def getNotFoundMsg : String :=
  "An error occurred (NoSuchKey) when calling the GetObject operation: The specified key does not exist."

/-- The `for record in event['Records']` loop (lines 61-120) together with
the top-level exception boundary: a raised `ClientError` aborts the batch
and yields the 500 response, keeping the mutations already committed. -/
def processBatch (s3 : S3State) :
    List S3EventRecord → Collection → List Op → LambdaResult × Collection × List Op
  | [], coll, ops =>
      ({ statusCode := 200, body := jsonStr "S3 event processed successfully." },
       coll, ops)
  | r :: rest, coll, ops =>
      let ops' := ops ++ [Op.headObject r.bucket r.key]
      match applyRecord s3 coll r with
      | none => (err500 headNotFoundMsg, coll, ops')
      | some (coll', sops) => processBatch s3 rest coll' (ops' ++ sops)

/-- The API Gateway query-string dictionary: each parameter is absent or a
string (`query_params.get(..., None)`). -/
structure QueryParams where
  bucket : Option String
  file : Option String
deriving DecidableEq, Repr

/-- Python truthiness of `query_params.get(...)`: `None` and the empty
string are falsy. -/
def truthy : Option String → Bool
  | none => false
  | some s => !(s == "")

/-- The incoming event.  `queryStringParameters = some none` models the key
being present with value `null` (as API Gateway sends when no query string
is given); `none` models the key being absent. -/
structure LambdaEvent where
  queryStringParameters : Option (Option QueryParams)
  Records : Option (List S3EventRecord)
deriving DecidableEq, Repr

/-- `file_path.split('/')[-1]` (line 45): the last '/'-separated
segment. -/
def lastSegment (p : String) : String :=
  (p.splitOn "/").getLastD ""

/-- Base64 encoding, sextet layer: packs byte triples into 6-bit values
(final group of one or two bytes yields two or three sextets). -/
def encodeSextets : List Nat → List Nat
  | a :: b :: c :: rest =>
      a / 4 :: ((a % 4) * 16 + b / 16) :: ((b % 16) * 4 + c / 64) :: (c % 64)
        :: encodeSextets rest
  | [a, b] => [a / 4, (a % 4) * 16 + b / 16, (b % 16) * 4]
  | [a] => [a / 4, (a % 4) * 16]
  | [] => []

/-- Base64 decoding, sextet layer: unpacks 6-bit values back into bytes. -/
def decodeSextets : List Nat → List Nat
  | w :: x :: y :: z :: rest =>
      (w * 4 + x / 16) :: ((x % 16) * 16 + y / 4) :: ((y % 4) * 64 + z)
        :: decodeSextets rest
  | [w, x, y] => [w * 4 + x / 16, (x % 16) * 16 + y / 4]
  | [w, x] => [w * 4 + x / 16]
  | _ => []

/-- The standard base64 alphabet. -/
def b64charOf (n : Nat) : Char :=
  if n < 26 then Char.ofNat (65 + n)
  else if n < 52 then Char.ofNat (97 + (n - 26))
  else if n < 62 then Char.ofNat (48 + (n - 52))
  else if n = 62 then '+'
  else '/'

/-- Inverse of the base64 alphabet. -/
def b64charDec (c : Char) : Nat :=
  if 65 ≤ c.toNat ∧ c.toNat ≤ 90 then c.toNat - 65
  else if 97 ≤ c.toNat ∧ c.toNat ≤ 122 then c.toNat - 97 + 26
  else if 48 ≤ c.toNat ∧ c.toNat ≤ 57 then c.toNat - 48 + 52
  else if c = '+' then 62
  else 63

/-- Number of trailing `=` pad characters base64 appends. -/
def b64padLen (bs : List Nat) : Nat :=
  match bs.length % 3 with
  | 0 => 0
  | 1 => 2
  | _ => 1

/-- `base64.b64encode(bytes).decode('utf-8')` (line 48). -/
def b64encodeString (bs : List Nat) : String :=
  String.mk ((encodeSextets bs).map b64charOf ++ List.replicate (b64padLen bs) '=')

/-- Standard base64 decoding of a string back to bytes (pad characters
stripped, sextets unpacked). -/
def b64decodeString (s : String) : List Nat :=
  decodeSextets ((s.data.filter (fun c => c != '=')).map b64charDec)

/-- `lambda_handler(event, context)` (lines 20-133), parameterised by the
S3 state and the current MongoDB collection.  Returns the response, the
final collection, and the log of S3 calls and collection mutations. -/
def lambda_handler (s3 : S3State) (coll : Collection) (event : LambdaEvent) :
    LambdaResult × Collection × List Op :=
  match event.queryStringParameters with
  | some query_params =>
      match query_params with
      | none =>
          -- `query_params.get` on `None` raises AttributeError, caught at
          -- the boundary.
          (err500 "NoneType object has no attribute get", coll, [])
      | some qp =>
          if !truthy qp.bucket || !truthy qp.file then
            ({ statusCode := 400,
               body := jsonStr "Missing bucket or file query parameter." },
             coll, [])
          else
            let b := qp.bucket.getD ""
            let f := qp.file.getD ""
            match s3 b f with
            | none => (err500 getNotFoundMsg, coll, [Op.getObject b f])
            | some obj =>
                ({ statusCode := 200,
                   headers :=
                     [("Content-Type", obj.contentType),
                      ("Content-Disposition",
                        "attachment; filename=" ++ lastSegment f)],
                   body := b64encodeString obj.content,
                   isBase64Encoded := true },
                 coll, [Op.getObject b f])
  | none =>
      match event.Records with
      | some records => processBatch s3 records coll []
      | none =>
          ({ statusCode := 400, body := jsonStr "Unsupported event source." },
           coll, [])

/-! ### Helper lemmas about the collection operations -/

theorem string_data_mk (l : List Char) : (String.mk l).data = l := rfl

theorem keyMatch_set (b p e t : String) (r : FileRecord) :
    keyMatch b p { r with etag := e, timestamp := t } = keyMatch b p r := rfl

theorem keyMatch_self (b p e t : String) :
    keyMatch b p ⟨b, p, e, t⟩ = true := by
  simp [keyMatch]

theorem find_one_eq_none_iff (coll : Collection) (b p : String) :
    find_one coll b p = none ↔ countKey coll b p = 0 := by
  simp [find_one, countKey, List.find?_eq_none, List.countP_eq_zero]

theorem countKey_pos_of_find_one {coll : Collection} {b p : String} {fr : FileRecord}
    (h : find_one coll b p = some fr) : 0 < countKey coll b p := by
  have hmem := List.mem_of_find?_eq_some h
  have hp := List.find?_some h
  simp only [countKey, List.countP_pos_iff]
  exact ⟨fr, hmem, hp⟩

theorem countKey_delete_one (coll : Collection) (b p : String) :
    countKey (delete_one coll b p) b p = countKey coll b p - 1 := by
  induction coll with
  | nil => rfl
  | cons r rest ih =>
      cases hk : keyMatch b p r with
      | true => simp [delete_one, countKey, hk]
      | false => simpa [delete_one, countKey, hk] using ih

theorem countKey_insert_one (coll : Collection) (r : FileRecord) (b p : String) :
    countKey (insert_one coll r) b p
      = countKey coll b p + (if keyMatch b p r then 1 else 0) := by
  simp [insert_one, countKey, List.countP_append, List.countP_cons]

theorem countKey_fou (coll : Collection) (b p e t : String) :
    countKey (find_one_and_update coll b p e t) b p = countKey coll b p := by
  induction coll with
  | nil => rfl
  | cons r rest ih =>
      cases hk : keyMatch b p r with
      | true =>
          simp [find_one_and_update, countKey, hk, List.countP_cons, keyMatch_set]
      | false =>
          simpa [find_one_and_update, countKey, hk, List.countP_cons] using ih

theorem find_one_insert_of_none (coll : Collection) (b p : String) (r : FileRecord)
    (h : find_one coll b p = none) (hr : keyMatch b p r = true) :
    find_one (insert_one coll r) b p = some r := by
  unfold find_one at h ⊢
  unfold insert_one
  rw [List.find?_append, h]
  simp [List.find?, hr]

theorem find_one_fou : ∀ (coll : Collection) (b p e t : String) (fr : FileRecord),
    find_one coll b p = some fr →
    find_one (find_one_and_update coll b p e t) b p
      = some { fr with etag := e, timestamp := t }
  | [], _, _, _, _, _, h => by simp [find_one] at h
  | r :: rest, b, p, e, t, fr, h => by
      cases hk : keyMatch b p r with
      | true =>
          have hfr : r = fr := by
            simpa [find_one, List.find?_cons_of_pos, hk] using h
          subst hfr
          simp [find_one, find_one_and_update, hk, List.find?_cons_of_pos, keyMatch_set]
      | false =>
          have h' : find_one rest b p = some fr := by
            simpa [find_one, List.find?_cons_of_neg, hk] using h
          simpa [find_one, find_one_and_update, hk, List.find?_cons_of_neg]
            using find_one_fou rest b p e t fr h'

theorem find_one_append_first (l₁ l₂ : Collection) (fr : FileRecord) (b p : String)
    (hl₁ : ∀ x ∈ l₁, keyMatch b p x = false) (hfr : keyMatch b p fr = true) :
    find_one (l₁ ++ fr :: l₂) b p = some fr := by
  induction l₁ with
  | nil => simp [find_one, List.find?, hfr]
  | cons a t ih =>
      have ha : keyMatch b p a = false := hl₁ a (by simp)
      have ih' := ih (fun x hx => hl₁ x (by simp [hx]))
      simpa [find_one, List.find?_cons_of_neg, ha] using ih'

theorem fou_append_first (l₁ l₂ : Collection) (fr : FileRecord) (b p e t : String)
    (hl₁ : ∀ x ∈ l₁, keyMatch b p x = false) (hfr : keyMatch b p fr = true) :
    find_one_and_update (l₁ ++ fr :: l₂) b p e t
      = l₁ ++ { fr with etag := e, timestamp := t } :: l₂ := by
  induction l₁ with
  | nil => simp [find_one_and_update, hfr]
  | cons a tl ih =>
      have ha : keyMatch b p a = false := hl₁ a (by simp)
      have ih' := ih (fun x hx => hl₁ x (by simp [hx]))
      simp [find_one_and_update, ha, ih']

/-! ### Base64 round-trip -/

theorem decodeSextets_encodeSextets : ∀ (bs : List Nat), (∀ x ∈ bs, x < 256) →
    decodeSextets (encodeSextets bs) = bs
  | [], _ => rfl
  | [a], h => by
      have ha : a < 256 := h a (by simp)
      simp only [encodeSextets, decodeSextets, List.cons.injEq, and_true]
      omega
  | [a, b], h => by
      have ha : a < 256 := h a (by simp)
      have hb : b < 256 := h b (by simp)
      simp only [encodeSextets, decodeSextets, List.cons.injEq, and_true]
      constructor <;> omega
  | a :: b :: c :: rest, h => by
      have ha : a < 256 := h a (by simp)
      have hb : b < 256 := h b (by simp)
      have hc : c < 256 := h c (by simp)
      have ih := decodeSextets_encodeSextets rest (fun x hx => h x (by simp [hx]))
      simp only [encodeSextets, decodeSextets, ih, List.cons.injEq]
      refine ⟨by omega, by omega, by omega, trivial⟩

theorem encodeSextets_lt_64 : ∀ (bs : List Nat), (∀ x ∈ bs, x < 256) →
    ∀ s ∈ encodeSextets bs, s < 64
  | [], _ => by simp [encodeSextets]
  | [a], h => by
      have ha : a < 256 := h a (by simp)
      intro s hs
      simp only [encodeSextets, List.mem_cons, List.not_mem_nil, or_false] at hs
      rcases hs with rfl | rfl <;> omega
  | [a, b], h => by
      have ha : a < 256 := h a (by simp)
      have hb : b < 256 := h b (by simp)
      intro s hs
      simp only [encodeSextets, List.mem_cons, List.not_mem_nil, or_false] at hs
      rcases hs with rfl | rfl | rfl <;> omega
  | a :: b :: c :: rest, h => by
      have ha : a < 256 := h a (by simp)
      have hb : b < 256 := h b (by simp)
      have hc : c < 256 := h c (by simp)
      have ih := encodeSextets_lt_64 rest (fun x hx => h x (by simp [hx]))
      intro s hs
      simp only [encodeSextets, List.mem_cons] at hs
      rcases hs with rfl | rfl | rfl | rfl | hs
      · omega
      · omega
      · omega
      · omega
      · exact ih s hs

theorem b64charDec_b64charOf : ∀ n, n < 64 → b64charDec (b64charOf n) = n := by decide

theorem b64charOf_ne_pad : ∀ n, n < 64 → b64charOf n ≠ '=' := by decide

theorem filter_pad (l : List Char) (k : Nat) (hl : ∀ c ∈ l, c ≠ '=') :
    (l ++ List.replicate k '=').filter (fun c => c != '=') = l := by
  rw [List.filter_append]
  have h1 : l.filter (fun c => c != '=') = l :=
    List.filter_eq_self.mpr (by intro a ha; simpa using hl a ha)
  have h2 : (List.replicate k '=').filter (fun c => c != '=') = [] := by
    induction k with
    | zero => rfl
    | succ n ih => simp [List.replicate_succ, ih]
  rw [h1, h2, List.append_nil]

theorem map_dec_map_of : ∀ (ss : List Nat), (∀ s ∈ ss, s < 64) →
    (ss.map b64charOf).map b64charDec = ss
  | [], _ => rfl
  | a :: t, h => by
      simp only [List.map_cons, List.cons.injEq]
      exact ⟨b64charDec_b64charOf a (h a (by simp)),
             map_dec_map_of t (fun x hx => h x (by simp [hx]))⟩

/-- Decoding the base64 string produced by the handler recovers the
original bytes. -/
theorem b64_roundtrip (bs : List Nat) (h : ∀ x ∈ bs, x < 256) :
    b64decodeString (b64encodeString bs) = bs := by
  have hchars : ∀ c ∈ (encodeSextets bs).map b64charOf, c ≠ '=' := by
    intro c hc
    rcases List.mem_map.mp hc with ⟨s, hs, rfl⟩
    exact b64charOf_ne_pad s (encodeSextets_lt_64 bs h s hs)
  simp only [b64decodeString, b64encodeString, string_data_mk]
  rw [filter_pad _ _ hchars, map_dec_map_of _ (encodeSextets_lt_64 bs h),
    decodeSextets_encodeSextets bs h]

/-! ### Post-state of one record application -/

/-- After a non-delete record whose `head_object` call succeeds, the key
has exactly one document and its etag is the freshly fetched (quote
stripped) one, provided the key-uniqueness invariant held before. -/
theorem applyRecord_nonDelete (s3 : S3State) (coll : Collection) (r : S3EventRecord)
    (obj : S3Object)
    (hnd : isDeleteEvent r.eventName = false)
    (hs3 : s3 r.bucket r.key = some obj)
    (hinv : countKey coll r.bucket r.key ≤ 1) :
    ∃ coll' sops, applyRecord s3 coll r = some (coll', sops) ∧
      countKey coll' r.bucket r.key = 1 ∧
      ∃ fr, find_one coll' r.bucket r.key = some fr ∧
        fr.etag = stripQuotes obj.etag := by
  cases hfind : find_one coll r.bucket r.key with
  | none =>
      have h0 : countKey coll r.bucket r.key = 0 :=
        (find_one_eq_none_iff coll r.bucket r.key).mp hfind
      refine ⟨insert_one coll
          ⟨r.bucket, r.key, stripQuotes obj.etag, r.eventTime⟩, [Op.insertOne],
        by simp [applyRecord, hs3, hfind, hnd], ?_, ?_⟩
      · rw [countKey_insert_one, h0, keyMatch_self]
        simp
      · exact ⟨_, find_one_insert_of_none coll r.bucket r.key _ hfind
          (keyMatch_self r.bucket r.key _ _), rfl⟩
  | some fr =>
      have hpos : 0 < countKey coll r.bucket r.key := countKey_pos_of_find_one hfind
      have h1 : countKey coll r.bucket r.key = 1 := by omega
      cases hbeq : fr.etag == stripQuotes obj.etag with
      | true =>
          refine ⟨coll, [], by simp [applyRecord, hs3, hfind, hbeq, hnd], h1,
            fr, hfind, eq_of_beq hbeq⟩
      | false =>
          refine ⟨find_one_and_update coll r.bucket r.key (stripQuotes obj.etag)
              r.eventTime, [Op.updateOne],
            by simp [applyRecord, hs3, hfind, hbeq, hnd], ?_, ?_⟩
          · rw [countKey_fou]; exact h1
          · exact ⟨_, find_one_fou coll r.bucket r.key _ _ fr hfind, rfl⟩

/-- After a delete record whose `head_object` call succeeds, the key has no
document left, provided the key-uniqueness invariant held before. -/
theorem applyRecord_delete (s3 : S3State) (coll : Collection) (r : S3EventRecord)
    (obj : S3Object)
    (hd : isDeleteEvent r.eventName = true)
    (hs3 : s3 r.bucket r.key = some obj)
    (hinv : countKey coll r.bucket r.key ≤ 1) :
    ∃ coll' sops, applyRecord s3 coll r = some (coll', sops) ∧
      countKey coll' r.bucket r.key = 0 := by
  cases hfind : find_one coll r.bucket r.key with
  | none =>
      have h0 : countKey coll r.bucket r.key = 0 :=
        (find_one_eq_none_iff coll r.bucket r.key).mp hfind
      refine ⟨delete_one (insert_one coll
          ⟨r.bucket, r.key, stripQuotes obj.etag, r.eventTime⟩) r.bucket r.key,
        [Op.insertOne, Op.deleteOne],
        by simp [applyRecord, hs3, hfind, hd], ?_⟩
      rw [countKey_delete_one, countKey_insert_one, h0, keyMatch_self]
      simp
  | some fr =>
      have hpos : 0 < countKey coll r.bucket r.key := countKey_pos_of_find_one hfind
      have h1 : countKey coll r.bucket r.key = 1 := by omega
      cases hbeq : fr.etag == stripQuotes obj.etag with
      | true =>
          refine ⟨delete_one coll r.bucket r.key, [Op.deleteOne],
            by simp [applyRecord, hs3, hfind, hbeq, hd], ?_⟩
          rw [countKey_delete_one, h1]
      | false =>
          refine ⟨delete_one (find_one_and_update coll r.bucket r.key
              (stripQuotes obj.etag) r.eventTime) r.bucket r.key,
            [Op.updateOne, Op.deleteOne],
            by simp [applyRecord, hs3, hfind, hbeq, hd], ?_⟩
          rw [countKey_delete_one, countKey_fou, h1]

/-! ### Claim theorems -/

/-- Claim C1 (code bug).  The claim says a delete record removes the
metadata record without any fingerprint lookup, and that deleting an absent
key is a no-op.  The code instead calls `head_object` for every record
before the `ObjectRemoved` check; on a delete notification the object is
gone from S3, so the call raises, the batch returns 500, and the metadata
record is never removed.  Evaluated at such a failing input: status 500,
the record still present, and a `headObject` fingerprint lookup in the call
log. -/
theorem c1_delete_event_head_object_bug :
    (lambda_handler (fun _ _ => none) [⟨"mybucket", "a/b.txt", "abc", "t0"⟩]
        ⟨none, some [⟨"ObjectRemoved:Delete", "mybucket", "a/b.txt", "t1"⟩]⟩).1.statusCode
      = 500 ∧
    (lambda_handler (fun _ _ => none) [⟨"mybucket", "a/b.txt", "abc", "t0"⟩]
        ⟨none, some [⟨"ObjectRemoved:Delete", "mybucket", "a/b.txt", "t1"⟩]⟩).2.1
      = [⟨"mybucket", "a/b.txt", "abc", "t0"⟩] ∧
    Op.headObject "mybucket" "a/b.txt"
      ∈ (lambda_handler (fun _ _ => none) [⟨"mybucket", "a/b.txt", "abc", "t0"⟩]
          ⟨none, some [⟨"ObjectRemoved:Delete", "mybucket", "a/b.txt", "t1"⟩]⟩).2.2 := by
  refine ⟨rfl, rfl, ?_⟩
  simp [lambda_handler, processBatch, applyRecord]

/-- Claim C2, counterexample.  The claim says a non-delete record whose
fingerprint query reports the object as missing is skipped and the batch
continues, returning 200 if the remaining records succeed.  At this input
the first record's object is missing while the second record would succeed,
yet the batch returns 500 and the second record is never applied (the
collection stays empty). -/
theorem c2_notfound_skip_counterexample :
    (lambda_handler
        (fun _ k => if k == "good.txt" then some ⟨[104], "text/plain", "\"e2\""⟩ else none)
        []
        ⟨none, some [⟨"ObjectCreated:Put", "b", "missing.txt", "t1"⟩,
                     ⟨"ObjectCreated:Put", "b", "good.txt", "t2"⟩]⟩).1.statusCode = 500 ∧
    (lambda_handler
        (fun _ k => if k == "good.txt" then some ⟨[104], "text/plain", "\"e2\""⟩ else none)
        []
        ⟨none, some [⟨"ObjectCreated:Put", "b", "missing.txt", "t1"⟩,
                     ⟨"ObjectCreated:Put", "b", "good.txt", "t2"⟩]⟩).2.1 = [] := by
  constructor <;> rfl

/-- Claim C2, amended.  When the fingerprint query for a non-delete record
reports the object as missing, the raised error propagates to the
invocation boundary: the whole batch aborts with status 500, no store
mutation is performed for that record, and the remaining records are not
processed (mutations already applied for earlier records remain, as the
collection and log passed in are returned unchanged apart from the logged
lookup). -/
theorem c2_notfound_aborts_batch (s3 : S3State) (coll : Collection) (ops : List Op)
    (r : S3EventRecord) (rest : List S3EventRecord)
    (_hnd : isDeleteEvent r.eventName = false)
    (hnf : s3 r.bucket r.key = none) :
    processBatch s3 (r :: rest) coll ops =
      (err500 headNotFoundMsg, coll, ops ++ [Op.headObject r.bucket r.key]) := by
  simp [processBatch, applyRecord, hnf]

/-- Witness for the amended C2 at a concrete input. -/
theorem c2_notfound_aborts_batch_witness :
    isDeleteEvent "ObjectCreated:Put" = false ∧
    (fun _ _ => (none : Option S3Object)) "b" "k" = none ∧
    processBatch (fun _ _ => none) [⟨"ObjectCreated:Put", "b", "k", "t1"⟩] [] [] =
      (err500 headNotFoundMsg, [], [Op.headObject "b" "k"]) :=
  ⟨by decide, rfl,
   c2_notfound_aborts_batch (fun _ _ => none) [] [] ⟨"ObjectCreated:Put", "b", "k", "t1"⟩ []
     (by decide) rfl⟩

/-- Claim C3, counterexample.  The claim says any batch containing a create
record followed by a delete record for one key ends with no record for that
key.  Here the object is absent from S3 (the normal situation once it has
been deleted), so the first record's `head_object` raises, the batch aborts
with 500, and the pre-existing metadata record for the key survives. -/
theorem c3_batch_order_counterexample :
    find_one (lambda_handler (fun _ _ => none) [⟨"b", "k", "e0", "t0"⟩]
        ⟨none, some [⟨"ObjectCreated:Put", "b", "k", "t1"⟩,
                     ⟨"ObjectRemoved:Delete", "b", "k", "t2"⟩]⟩).2.1 "b" "k"
      = some ⟨"b", "k", "e0", "t0"⟩ := by
  rfl

/-- Claim C3, amended.  Assuming the store invariant (at most one record
per key) and that the object is present in the object store whenever a
record for it is processed (so every fingerprint lookup succeeds): a batch
of a create record followed by a delete record for one key ends with no
record for that key, and the reversed batch ends with a record carrying the
fingerprint fetched while processing the create record and the create
record's event time. -/
theorem c3_batch_order_amended (s3 : S3State) (coll : Collection)
    (b k cname dname t1 t2 : String) (obj : S3Object)
    (hs3 : s3 b k = some obj)
    (hinv : countKey coll b k ≤ 1)
    (hc : isDeleteEvent cname = false)
    (hd : isDeleteEvent dname = true) :
    find_one (processBatch s3 [⟨cname, b, k, t1⟩, ⟨dname, b, k, t2⟩] coll []).2.1 b k
      = none ∧
    find_one (processBatch s3 [⟨dname, b, k, t2⟩, ⟨cname, b, k, t1⟩] coll []).2.1 b k
      = some ⟨b, k, stripQuotes obj.etag, t1⟩ := by
  constructor
  · obtain ⟨coll₁, sops₁, heq₁, hcnt₁, fr₁, hfind₁, hetag₁⟩ :=
      applyRecord_nonDelete s3 coll ⟨cname, b, k, t1⟩ obj hc hs3 hinv
    obtain ⟨coll₂, sops₂, heq₂, hcnt₂⟩ :=
      applyRecord_delete s3 coll₁ ⟨dname, b, k, t2⟩ obj hd hs3 (le_of_eq hcnt₁)
    simp only [processBatch, heq₁, heq₂]
    exact (find_one_eq_none_iff coll₂ b k).mpr hcnt₂
  · obtain ⟨coll₁, sops₁, heq₁, hcnt₁⟩ :=
      applyRecord_delete s3 coll ⟨dname, b, k, t2⟩ obj hd hs3 hinv
    have hfind₁ : find_one coll₁ b k = none :=
      (find_one_eq_none_iff coll₁ b k).mpr hcnt₁
    have heq₂ : applyRecord s3 coll₁ ⟨cname, b, k, t1⟩ =
        some (insert_one coll₁ ⟨b, k, stripQuotes obj.etag, t1⟩, [Op.insertOne]) := by
      simp [applyRecord, hs3, hfind₁, hc]
    simp only [processBatch, heq₁, heq₂]
    exact find_one_insert_of_none coll₁ b k _ hfind₁ (keyMatch_self b k _ _)

/-- Witness for the amended C3 at a concrete input. -/
theorem c3_batch_order_amended_witness :
    (fun _ _ => some (⟨[1], "text/plain", "\"e1\""⟩ : S3Object)) "b" "k"
        = some (⟨[1], "text/plain", "\"e1\""⟩ : S3Object) ∧
    countKey [] "b" "k" ≤ 1 ∧
    isDeleteEvent "ObjectCreated:Put" = false ∧
    isDeleteEvent "ObjectRemoved:Delete" = true ∧
    (find_one (processBatch (fun _ _ => some ⟨[1], "text/plain", "\"e1\""⟩)
        [⟨"ObjectCreated:Put", "b", "k", "t1"⟩, ⟨"ObjectRemoved:Delete", "b", "k", "t2"⟩]
        [] []).2.1 "b" "k" = none ∧
     find_one (processBatch (fun _ _ => some ⟨[1], "text/plain", "\"e1\""⟩)
        [⟨"ObjectRemoved:Delete", "b", "k", "t2"⟩, ⟨"ObjectCreated:Put", "b", "k", "t1"⟩]
        [] []).2.1 "b" "k" = some ⟨"b", "k", stripQuotes "\"e1\"", "t1"⟩) :=
  ⟨rfl, by decide, by decide, by decide,
   c3_batch_order_amended (fun _ _ => some ⟨[1], "text/plain", "\"e1\""⟩) []
     "b" "k" "ObjectCreated:Put" "ObjectRemoved:Delete" "t1" "t2"
     ⟨[1], "text/plain", "\"e1\""⟩ rfl (by decide) (by decide) (by decide)⟩

/-- Claim C4 (confirmed).  Applying the same creation event twice
sequentially — the object present in S3, no pre-existing record for the
key — leaves exactly one record for the (bucket, path) key: the first
application inserts it, the second one finds it with a matching fingerprint
and performs no store mutation (same collection back, empty mutation
log). -/
theorem c4_idempotent_creation (s3 : S3State) (coll : Collection)
    (r : S3EventRecord) (obj : S3Object)
    (hnd : isDeleteEvent r.eventName = false)
    (hs3 : s3 r.bucket r.key = some obj)
    (h0 : find_one coll r.bucket r.key = none) :
    applyRecord s3 coll r =
      some (insert_one coll ⟨r.bucket, r.key, stripQuotes obj.etag, r.eventTime⟩,
            [Op.insertOne]) ∧
    applyRecord s3
        (insert_one coll ⟨r.bucket, r.key, stripQuotes obj.etag, r.eventTime⟩) r =
      some (insert_one coll ⟨r.bucket, r.key, stripQuotes obj.etag, r.eventTime⟩, []) ∧
    countKey (insert_one coll ⟨r.bucket, r.key, stripQuotes obj.etag, r.eventTime⟩)
        r.bucket r.key = 1 := by
  have hfind₂ := find_one_insert_of_none coll r.bucket r.key
    ⟨r.bucket, r.key, stripQuotes obj.etag, r.eventTime⟩ h0
    (keyMatch_self r.bucket r.key _ _)
  refine ⟨by simp [applyRecord, hs3, h0, hnd], ?_, ?_⟩
  · simp [applyRecord, hs3, hfind₂, hnd]
  · rw [countKey_insert_one, (find_one_eq_none_iff coll r.bucket r.key).mp h0,
      keyMatch_self]
    simp

/-- Witness for C4 at a concrete input. -/
theorem c4_idempotent_creation_witness :
    isDeleteEvent "ObjectCreated:Put" = false ∧
    (fun _ _ => some (⟨[1], "ct", "\"e1\""⟩ : S3Object)) "b" "k"
        = some (⟨[1], "ct", "\"e1\""⟩ : S3Object) ∧
    find_one [] "b" "k" = none ∧
    (applyRecord (fun _ _ => some ⟨[1], "ct", "\"e1\""⟩) []
        ⟨"ObjectCreated:Put", "b", "k", "t1"⟩ =
      some (insert_one [] ⟨"b", "k", stripQuotes "\"e1\"", "t1"⟩, [Op.insertOne]) ∧
    applyRecord (fun _ _ => some ⟨[1], "ct", "\"e1\""⟩)
        (insert_one [] ⟨"b", "k", stripQuotes "\"e1\"", "t1"⟩)
        ⟨"ObjectCreated:Put", "b", "k", "t1"⟩ =
      some (insert_one [] ⟨"b", "k", stripQuotes "\"e1\"", "t1"⟩, []) ∧
    countKey (insert_one [] ⟨"b", "k", stripQuotes "\"e1\"", "t1"⟩) "b" "k" = 1) :=
  ⟨by decide, rfl, rfl,
   c4_idempotent_creation (fun _ _ => some ⟨[1], "ct", "\"e1\""⟩) []
     ⟨"ObjectCreated:Put", "b", "k", "t1"⟩ ⟨[1], "ct", "\"e1\""⟩
     (by decide) rfl rfl⟩

/-- Claim C5 (confirmed).  A non-delete (modification) record whose freshly
fetched fingerprint equals the one stored in the existing record performs
no store mutation: the collection is returned unchanged and the mutation
log is empty. -/
theorem c5_same_fingerprint_noop (s3 : S3State) (coll : Collection)
    (r : S3EventRecord) (obj : S3Object) (fr : FileRecord)
    (hnd : isDeleteEvent r.eventName = false)
    (hs3 : s3 r.bucket r.key = some obj)
    (hfind : find_one coll r.bucket r.key = some fr)
    (heq : fr.etag = stripQuotes obj.etag) :
    applyRecord s3 coll r = some (coll, []) := by
  simp [applyRecord, hs3, hfind, heq, hnd]

/-- Witness for C5 at a concrete input. -/
theorem c5_same_fingerprint_noop_witness :
    isDeleteEvent "ObjectCreated:Put" = false ∧
    (fun _ _ => some (⟨[1], "ct", "\"e1\""⟩ : S3Object)) "b" "k"
        = some (⟨[1], "ct", "\"e1\""⟩ : S3Object) ∧
    find_one [⟨"b", "k", "e1", "t0"⟩] "b" "k" = some ⟨"b", "k", "e1", "t0"⟩ ∧
    FileRecord.etag ⟨"b", "k", "e1", "t0"⟩ = stripQuotes "\"e1\"" ∧
    applyRecord (fun _ _ => some ⟨[1], "ct", "\"e1\""⟩) [⟨"b", "k", "e1", "t0"⟩]
        ⟨"ObjectCreated:Put", "b", "k", "t1"⟩ = some ([⟨"b", "k", "e1", "t0"⟩], []) :=
  ⟨by decide, rfl, rfl, by decide,
   c5_same_fingerprint_noop (fun _ _ => some ⟨[1], "ct", "\"e1\""⟩)
     [⟨"b", "k", "e1", "t0"⟩] ⟨"ObjectCreated:Put", "b", "k", "t1"⟩
     ⟨[1], "ct", "\"e1\""⟩ ⟨"b", "k", "e1", "t0"⟩ (by decide) rfl rfl (by decide)⟩

/-- Claim C6 (confirmed).  A non-delete (modification) record whose freshly
fetched fingerprint differs from the stored one updates exactly the first
matching record, setting its `etag` to the fetched fingerprint and its
`timestamp` to the event time while keeping its `bucket` and `file_path`;
every other record of the collection (the prefix `l₁` of non-matching
records and the suffix `l₂`) is untouched, and the only logged mutation is
the update. -/
theorem c6_changed_fingerprint_update (s3 : S3State) (r : S3EventRecord)
    (obj : S3Object) (fr : FileRecord) (l₁ l₂ : Collection)
    (hnd : isDeleteEvent r.eventName = false)
    (hs3 : s3 r.bucket r.key = some obj)
    (hl₁ : ∀ x ∈ l₁, keyMatch r.bucket r.key x = false)
    (hfr : keyMatch r.bucket r.key fr = true)
    (hne : fr.etag ≠ stripQuotes obj.etag) :
    applyRecord s3 (l₁ ++ fr :: l₂) r =
      some (l₁ ++ { fr with etag := stripQuotes obj.etag,
                            timestamp := r.eventTime } :: l₂,
            [Op.updateOne]) := by
  have hfind := find_one_append_first l₁ l₂ fr r.bucket r.key hl₁ hfr
  have hbeq : (fr.etag == stripQuotes obj.etag) = false := by
    simp only [beq_eq_false_iff_ne, ne_eq]
    exact hne
  have hfou := fou_append_first l₁ l₂ fr r.bucket r.key (stripQuotes obj.etag)
    r.eventTime hl₁ hfr
  simp [applyRecord, hs3, hfind, hbeq, hnd, hfou]

/-- Witness for C6 at a concrete input. -/
theorem c6_changed_fingerprint_update_witness :
    isDeleteEvent "ObjectCreated:Put" = false ∧
    (fun _ _ => some (⟨[1], "ct", "\"e2\""⟩ : S3Object)) "b" "k"
        = some (⟨[1], "ct", "\"e2\""⟩ : S3Object) ∧
    (∀ x ∈ [(⟨"c", "x", "e0", "t"⟩ : FileRecord)], keyMatch "b" "k" x = false) ∧
    keyMatch "b" "k" ⟨"b", "k", "e1", "t0"⟩ = true ∧
    FileRecord.etag ⟨"b", "k", "e1", "t0"⟩ ≠ stripQuotes "\"e2\"" ∧
    applyRecord (fun _ _ => some ⟨[1], "ct", "\"e2\""⟩)
        ([⟨"c", "x", "e0", "t"⟩] ++ (⟨"b", "k", "e1", "t0"⟩ : FileRecord) :: [])
        ⟨"ObjectCreated:Put", "b", "k", "t1"⟩ =
      some ([⟨"c", "x", "e0", "t"⟩] ++
              ({ (⟨"b", "k", "e1", "t0"⟩ : FileRecord) with
                  etag := stripQuotes "\"e2\"", timestamp := "t1" }) :: [],
            [Op.updateOne]) :=
  ⟨by decide, rfl, by decide, by decide, by decide,
   c6_changed_fingerprint_update (fun _ _ => some ⟨[1], "ct", "\"e2\""⟩)
     ⟨"ObjectCreated:Put", "b", "k", "t1"⟩ ⟨[1], "ct", "\"e2\""⟩
     ⟨"b", "k", "e1", "t0"⟩ [⟨"c", "x", "e0", "t"⟩] []
     (by decide) rfl (by decide) (by decide) (by decide)⟩

/-- Claim C7 (confirmed).  A retrieval invocation with non-empty `bucket`
and `file` parameters for an object of known bytes and content type returns
status 200 with `isBase64Encoded` set, a `Content-Disposition` header whose
filename is exactly the last '/'-separated segment of the path
(`lastSegment`, the embedding of `file_path.split('/')[-1]`), and a body
from which the original bytes are recovered by base64 decoding. -/
theorem c7_retrieval_roundtrip (s3 : S3State) (coll : Collection)
    (rs : Option (List S3EventRecord)) (b f : String) (obj : S3Object)
    (hb : b ≠ "") (hf : f ≠ "")
    (hs3 : s3 b f = some obj)
    (hbytes : ∀ x ∈ obj.content, x < 256) :
    (lambda_handler s3 coll ⟨some (some ⟨some b, some f⟩), rs⟩).1 =
      { statusCode := 200,
        headers := [("Content-Type", obj.contentType),
                    ("Content-Disposition",
                      "attachment; filename=" ++ lastSegment f)],
        body := b64encodeString obj.content,
        isBase64Encoded := true } ∧
    b64decodeString (b64encodeString obj.content) = obj.content := by
  constructor
  · have htb : truthy (some b) = true := by simp [truthy, hb]
    have htf : truthy (some f) = true := by simp [truthy, hf]
    simp [lambda_handler, htb, htf, hs3]
  · exact b64_roundtrip obj.content hbytes

/-- Witness for C7 at a concrete input (path `a/b/report.csv`, bytes of
"Hi"). -/
theorem c7_retrieval_roundtrip_witness :
    "mybucket" ≠ "" ∧
    "a/b/report.csv" ≠ "" ∧
    (fun _ _ => some (⟨[72, 105], "text/csv", "\"e\""⟩ : S3Object)) "mybucket"
        "a/b/report.csv" = some (⟨[72, 105], "text/csv", "\"e\""⟩ : S3Object) ∧
    (∀ x ∈ [72, 105], x < 256) ∧
    ((lambda_handler (fun _ _ => some ⟨[72, 105], "text/csv", "\"e\""⟩) []
        ⟨some (some ⟨some "mybucket", some "a/b/report.csv"⟩), none⟩).1 =
      { statusCode := 200,
        headers := [("Content-Type", "text/csv"),
                    ("Content-Disposition",
                      "attachment; filename=" ++ lastSegment "a/b/report.csv")],
        body := b64encodeString [72, 105],
        isBase64Encoded := true } ∧
     b64decodeString (b64encodeString [72, 105]) = [72, 105]) :=
  ⟨by decide, by decide, rfl, by decide,
   c7_retrieval_roundtrip (fun _ _ => some ⟨[72, 105], "text/csv", "\"e\""⟩) []
     none "mybucket" "a/b/report.csv" ⟨[72, 105], "text/csv", "\"e\""⟩
     (by decide) (by decide) rfl (by decide)⟩

/-- Claim C8 (confirmed).  A retrieval invocation whose `bucket` parameter
is truthy (present, non-empty) but whose `file` parameter is falsy (absent
or empty) returns status 400 with the missing-parameter message, leaves the
collection unchanged, and performs no object-store call at all (empty
call log). -/
theorem c8_missing_file_param_400 (s3 : S3State) (coll : Collection)
    (rs : Option (List S3EventRecord)) (qp : QueryParams)
    (hb : truthy qp.bucket = true)
    (hf : truthy qp.file = false) :
    lambda_handler s3 coll ⟨some (some qp), rs⟩ =
      ({ statusCode := 400,
         body := jsonStr "Missing bucket or file query parameter." }, coll, []) := by
  simp [lambda_handler, hb, hf]

/-- Witness for C8 at a concrete input (`bucket` given, `file` absent). -/
theorem c8_missing_file_param_400_witness :
    truthy (QueryParams.bucket ⟨some "b", none⟩) = true ∧
    truthy (QueryParams.file ⟨some "b", none⟩) = false ∧
    lambda_handler (fun _ _ => none) [] ⟨some (some ⟨some "b", none⟩), none⟩ =
      ({ statusCode := 400,
         body := jsonStr "Missing bucket or file query parameter." }, [], []) :=
  ⟨by decide, by decide,
   c8_missing_file_param_400 (fun _ _ => none) [] none ⟨some "b", none⟩
     (by decide) (by decide)⟩

/-- Claim C9 (confirmed).  When the event carries the key
`queryStringParameters` with value null (as API Gateway sends when no query
string is given), `query_params.get` raises on `None`; the boundary handler
converts this to status 500 — not 400. -/
theorem c9_null_query_params_500 (s3 : S3State) (coll : Collection)
    (rs : Option (List S3EventRecord)) :
    (lambda_handler s3 coll ⟨some none, rs⟩).1.statusCode = 500 ∧
    (lambda_handler s3 coll ⟨some none, rs⟩).1.statusCode ≠ 400 := by
  constructor <;> simp [lambda_handler, err500]

/-- Claim C10 (confirmed).  When the event contains a
`queryStringParameters` key (of any value), the retrieval branch is taken:
the outcome does not depend on the `Records` field at all, the metadata
collection is unchanged, and no `head_object` fingerprint lookup is ever
performed. -/
theorem c10_query_params_wins_over_records (s3 : S3State) (coll : Collection)
    (qpv : Option QueryParams) (rs₁ rs₂ : Option (List S3EventRecord)) :
    lambda_handler s3 coll ⟨some qpv, rs₁⟩ = lambda_handler s3 coll ⟨some qpv, rs₂⟩ ∧
    (lambda_handler s3 coll ⟨some qpv, rs₁⟩).2.1 = coll ∧
    ∀ bb kk, Op.headObject bb kk ∉ (lambda_handler s3 coll ⟨some qpv, rs₁⟩).2.2 := by
  cases qpv with
  | none => exact ⟨rfl, rfl, by simp [lambda_handler]⟩
  | some qp =>
      cases hcond : (!truthy qp.bucket || !truthy qp.file) with
      | true => refine ⟨?_, ?_, ?_⟩ <;> simp [lambda_handler, hcond]
      | false =>
          cases hobj : s3 (qp.bucket.getD "") (qp.file.getD "") with
          | none => refine ⟨?_, ?_, ?_⟩ <;> simp [lambda_handler, hcond, hobj]
          | some obj => refine ⟨?_, ?_, ?_⟩ <;> simp [lambda_handler, hcond, hobj]

end InsertToMongo
